import Mathlib

/-! Verification development for the RFP assistant repository: shallow
embeddings of the resilient model client, the chunker, the RAG content
aggregator, the vector-store builder, PDF text extraction, the feedback
logger and the analyzer dispatch helper, together with theorems settling
the specification claims about them. -/

/- ===== Resilient model client: GeminiAgent.call_gemini ===== -/

/-- One candidate in a provider response, as inspected by call_gemini
(src/agents/base_agent.py). Only the finish reason is consulted. -/
structure GeminiCandidate where
  finish_reason : String
deriving DecidableEq

/-- A provider response as call_gemini inspects it: its candidate list, an
optional text attribute, an optional parts attribute (each part already
reduced to its text), and its string form. -/
structure GeminiResponse where
  candidates : List GeminiCandidate
  textAttr : Option String
  partsAttr : Option (List String)
  strForm : String
deriving DecidableEq

/-- The behavior of the provider on one attempt: either a response object or
a raised exception carrying its message. -/
inductive AttemptOutcome where
  | response (r : GeminiResponse)
  | exn (msg : String)
deriving DecidableEq

/-- Substring containment on character lists, modelling the Python `in`
operator on strings: the pattern occurs at the start of some suffix. -/
def containsAux (pat : List Char) : List Char → Bool
  | [] => pat.isEmpty
  | c :: rest => pat.isPrefixOf (c :: rest) || containsAux pat rest

/-- Substring containment on strings, modelling the Python `in` operator. -/
def strContains (s pat : String) : Bool :=
  containsAux pat.toList s.toList

/-- Classification of an exception message as a recitation/copyright block
(src/agents/base_agent.py line 71): the message mentions a missing valid
Part or a finish reason. -/
def isBlockMsg (msg : String) : Bool :=
  strContains msg "requires the response to contain a valid `Part`"
    || strContains msg "finish_reason"

/-- How call_gemini turns a returned response into its result string
(src/agents/base_agent.py lines 57-69): an empty candidate list or a
RECITATION finish reason yields the empty string; otherwise the text
attribute (stripped), else the concatenated parts, else the string form. -/
def handleResponse (r : GeminiResponse) : String :=
  match r.candidates with
  | [] => ""
  | c :: _ =>
    if c.finish_reason = "RECITATION" then ""
    else
      match r.textAttr with
      | some t => t.trim
      | none =>
        match r.partsAttr with
        | some ps => String.join ps
        | none => r.strForm

/-- The observable outcome of one call_gemini invocation: the returned
string, the number of attempts issued, and the sleeps performed, in order. -/
structure CallResult where
  result : String
  attempts : Nat
  sleeps : List Nat
deriving DecidableEq

/-- The retry loop of GeminiAgent.call_gemini (src/agents/base_agent.py
lines 54-84), with the provider modelled as a map from attempt index to
outcome. The fuel argument counts the attempts still allowed, attempt is
the index of the next attempt, delay the current backoff delay, and acc
the sleeps performed so far, most recent first. -/
def callGeminiAux (outcomes : Nat → AttemptOutcome) :
    Nat → Nat → Nat → List Nat → CallResult
  | 0, attempt, _, acc => ⟨"", attempt, acc.reverse⟩
  | fuel + 1, attempt, delay, acc =>
    match outcomes attempt with
    | .response r => ⟨handleResponse r, attempt + 1, acc.reverse⟩
    | .exn msg =>
      if isBlockMsg msg then ⟨"", attempt + 1, acc.reverse⟩
      else callGeminiAux outcomes fuel (attempt + 1) (delay * 2) (delay :: acc)

/-- GeminiAgent.call_gemini with the per-attempt provider behavior supplied
by outcomes, a maximum attempt count and an initial backoff delay
(src/agents/base_agent.py lines 54-84; the source defaults are retries 5
and delay 41). -/
def call_gemini (outcomes : Nat → AttemptOutcome) (retries delay : Nat) :
    CallResult :=
  callGeminiAux outcomes retries 0 delay []

/-- A fatal (no-retry) attempt outcome (src/agents/base_agent.py lines
57-62 and 70-73): a response with no candidates, a response whose first
candidate finished with RECITATION, or an exception whose message signals a
recitation/copyright block. -/
def isFatalOutcome : AttemptOutcome → Bool
  | .response r =>
    match r.candidates with
    | [] => true
    | c :: _ => c.finish_reason = "RECITATION"
  | .exn msg => isBlockMsg msg

theorem callGeminiAux_all_transient (outcomes : Nat → AttemptOutcome) :
    ∀ (fuel attempt delay : Nat) (acc : List Nat),
    (∀ i, attempt ≤ i → i < attempt + fuel →
      ∃ msg, outcomes i = .exn msg ∧ isBlockMsg msg = false) →
    callGeminiAux outcomes fuel attempt delay acc =
      ⟨"", attempt + fuel,
        acc.reverse ++ (List.range fuel).map (fun i => delay * 2 ^ i)⟩ := by
  intro fuel
  induction fuel with
  | zero => intro attempt delay acc _; simp [callGeminiAux]
  | succ n ih =>
    intro attempt delay acc h
    obtain ⟨msg, hmsg, hblock⟩ := h attempt (le_refl _) (by omega)
    rw [callGeminiAux, hmsg]
    simp only [hblock, Bool.false_eq_true, if_false]
    rw [ih (attempt + 1) (delay * 2) (delay :: acc)
      (fun i hi hi2 => h i (by omega) (by omega))]
    have hmap : (List.range n).map (fun i => delay * 2 * 2 ^ i)
        = (List.range n).map (fun i => delay * 2 ^ (i + 1)) := by
      apply List.map_congr_left
      intro i _
      ring
    simp only [CallResult.mk.injEq]
    refine ⟨trivial, by omega, ?_⟩
    simp [List.range_succ_eq_map, hmap, List.map_map, Function.comp]

/-- Claim C1: when the provider raises a transient (non-policy-block)
exception on every attempt, call_gemini with maximum attempt count retries
issues at most retries attempts, sleeps between attempts with a delay that
doubles after each failed attempt, and returns the empty string after
exhausting all attempts. -/
theorem call_gemini_all_transient (outcomes : Nat → AttemptOutcome)
    (retries delay : Nat)
    (h : ∀ i, i < retries →
      ∃ msg, outcomes i = .exn msg ∧ isBlockMsg msg = false) :
    (call_gemini outcomes retries delay).result = "" ∧
    (call_gemini outcomes retries delay).attempts ≤ retries ∧
    (call_gemini outcomes retries delay).sleeps =
      (List.range retries).map (fun i => delay * 2 ^ i) := by
  have := callGeminiAux_all_transient outcomes retries 0 delay []
    (fun i _ hi2 => h i (by omega))
  rw [call_gemini, this]
  simp

/-- Witness for claim C1 at a concrete always-failing provider with three
retries and an initial delay of 40. -/
theorem call_gemini_all_transient_witness :
    (call_gemini (fun _ => .exn "network down") 3 40).result = "" ∧
    (call_gemini (fun _ => .exn "network down") 3 40).attempts ≤ 3 ∧
    (call_gemini (fun _ => .exn "network down") 3 40).sleeps =
      (List.range 3).map (fun i => 40 * 2 ^ i) :=
  call_gemini_all_transient (fun _ => .exn "network down") 3 40
    (fun i _ => ⟨"network down", rfl, by decide⟩)

/-- Claim C2: when the first attempt reports no candidate output or an
explicit content-safety/recitation block, call_gemini returns the empty
string after exactly one attempt, with no retry and no backoff sleep. -/
theorem call_gemini_policy_block (outcomes : Nat → AttemptOutcome)
    (retries delay : Nat) (hr : 1 ≤ retries)
    (h : isFatalOutcome (outcomes 0) = true) :
    call_gemini outcomes retries delay = ⟨"", 1, []⟩ := by
  obtain ⟨n, rfl⟩ := Nat.exists_eq_succ_of_ne_zero (by omega : retries ≠ 0)
  cases ho : outcomes 0 with
  | response r =>
    rw [ho] at h
    simp only [isFatalOutcome] at h
    cases hc : r.candidates with
    | nil => simp [call_gemini, callGeminiAux, ho, handleResponse, hc]
    | cons c cs =>
      rw [hc] at h
      simp only [decide_eq_true_eq] at h
      simp [call_gemini, callGeminiAux, ho, handleResponse, hc, h]
  | exn msg =>
    rw [ho] at h
    simp only [isFatalOutcome] at h
    simp [call_gemini, callGeminiAux, ho, h]

/-- Witness for claim C2 at a provider whose first response has no
candidates, with the source default retries 5 and delay 41. -/
theorem call_gemini_policy_block_witness :
    call_gemini (fun _ => .response ⟨[], none, none, "resp"⟩) 5 41
      = ⟨"", 1, []⟩ :=
  call_gemini_policy_block (fun _ => .response ⟨[], none, none, "resp"⟩) 5 41
    (by decide) (by decide)

/- ===== Chunker (spec section 4.2) ===== -/

/-- Modelled from the spec: the separator characters of the chunker, the
character-level rendering of the configured separator list (paragraph
break, line break, sentence terminator, whitespace). The splitting
algorithm behind chunk_text (src/utility/chunker.py) lives in an external
library (RecursiveCharacterTextSplitter) whose code is not part of this
repository, so the chunker is modelled from spec section 4.2. -/
def sepChars : List Char := ['\n', '.', ' ']

/-- Modelled from the spec: the furthest separator boundary inside the
current window, i.e. the largest cut length k with overlap < k ≤ maxSize
such that the window character at position k - 1 is a separator
(accumulate pieces until adding the next piece would exceed max_size). -/
def lastSepCut (window : List Char) (maxSize overlap : Nat) : Option Nat :=
  (List.range (maxSize + 1)).reverse.find? (fun k =>
    decide (overlap < k) &&
      match window[k - 1]? with
      | some c => sepChars.contains c
      | none => false)

/-- Modelled from the spec: the length of the next chunk when more than
maxSize characters remain: the furthest separator boundary within the
window, or a hard character cut at exactly maxSize when no separator is
available there. -/
def cutLen (window : List Char) (maxSize overlap : Nat) : Nat :=
  match lastSepCut window maxSize overlap with
  | some k => k
  | none => maxSize

/-- Modelled from the spec: emit the chunk starting at position s, then
start the next chunk overlap characters back from its end, so that
consecutive chunks share an overlap-sized span; a final window of at most
maxSize characters is emitted whole. The fuel argument bounds the
recursion and never runs out on the calls made by chunk_text. -/
def chunkFrom (text : List Char) (maxSize overlap : Nat) :
    Nat → Nat → List (List Char)
  | 0, _ => []
  | fuel + 1, s =>
    if text.length - s ≤ maxSize then [text.drop s]
    else
      (text.drop s).take (cutLen (text.drop s) maxSize overlap) ::
        chunkFrom text maxSize overlap fuel
          (s + (cutLen (text.drop s) maxSize overlap - overlap))

/-- Modelled from the spec: chunk(text, max_size, overlap) over the text
as a character list; the empty text yields no chunks. -/
def chunk_text (text : List Char) (maxSize overlap : Nat) :
    List (List Char) :=
  if text.isEmpty then [] else chunkFrom text maxSize overlap text.length 0

/-- Re-join chunks while stripping the overlap regions: the first chunk is
kept whole and every later chunk loses its first overlap characters, which
duplicate the end of its predecessor. -/
def joinChunks (overlap : Nat) : List (List Char) → List Char
  | [] => []
  | c :: cs => c ++ (cs.map (fun d => d.drop overlap)).flatten

theorem cutLen_le (window : List Char) (maxSize overlap : Nat) :
    cutLen window maxSize overlap ≤ maxSize := by
  rw [cutLen]
  cases hf : lastSepCut window maxSize overlap with
  | none => exact le_refl _
  | some k =>
    have hk := List.mem_of_find?_eq_some hf
    rw [List.mem_reverse, List.mem_range] at hk
    exact Nat.lt_succ_iff.mp hk

theorem lt_cutLen (window : List Char) (maxSize overlap : Nat)
    (hov : overlap < maxSize) : overlap < cutLen window maxSize overlap := by
  rw [cutLen]
  cases hf : lastSepCut window maxSize overlap with
  | none => exact hov
  | some k =>
    have hk := List.find?_some hf
    rw [Bool.and_eq_true, decide_eq_true_eq] at hk
    exact hk.1

theorem chunkFrom_tail (text : List Char) (maxSize overlap : Nat)
    (hov : overlap < maxSize) :
    ∀ (fuel s : Nat), s < text.length → text.length - s ≤ fuel →
    ((chunkFrom text maxSize overlap fuel s).map
        (fun d => d.drop overlap)).flatten
      = text.drop (s + overlap) := by
  intro fuel
  induction fuel with
  | zero => intro s h1 h2; omega
  | succ n ih =>
    intro s h1 h2
    rw [chunkFrom]
    by_cases hrem : text.length - s ≤ maxSize
    · simp only [hrem, if_true, List.map_cons, List.map_nil,
        List.flatten_cons, List.flatten_nil, List.append_nil,
        List.drop_drop]
    · simp only [hrem, if_false, List.map_cons, List.flatten_cons]
      have hk1 : overlap < cutLen (text.drop s) maxSize overlap :=
        lt_cutLen _ _ _ hov
      have hk2 : cutLen (text.drop s) maxSize overlap ≤ maxSize :=
        cutLen_le _ _ _
      rw [ih (s + (cutLen (text.drop s) maxSize overlap - overlap))
        (by omega) (by omega)]
      have hdt : ((text.drop s).take
            (cutLen (text.drop s) maxSize overlap)).drop overlap
          = ((text.drop s).drop overlap).take
            (cutLen (text.drop s) maxSize overlap - overlap) :=
        List.drop_take ..
      have hd2 : text.drop
            (s + (cutLen (text.drop s) maxSize overlap - overlap) + overlap)
          = ((text.drop s).drop overlap).drop
            (cutLen (text.drop s) maxSize overlap - overlap) := by
        rw [List.drop_drop, List.drop_drop]
        congr 1
        omega
      rw [hdt, hd2, List.take_append_drop, List.drop_drop]

/-- Claim C3: for every input text and chunk parameters with
overlap < max_size, re-joining the chunks produced by chunk_text while
stripping the overlap regions exactly reconstructs the input. -/
theorem chunk_text_reconstruct (text : List Char) (maxSize overlap : Nat)
    (hov : overlap < maxSize) :
    joinChunks overlap (chunk_text text maxSize overlap) = text := by
  rw [chunk_text]
  by_cases he : text.isEmpty
  · rw [List.isEmpty_iff] at he
    simp [he, joinChunks]
  · rw [List.isEmpty_iff] at he
    simp only [List.isEmpty_eq_true, he, if_false]
    have hlen : 0 < text.length := List.length_pos_of_ne_nil he
    obtain ⟨m, hm⟩ :=
      Nat.exists_eq_succ_of_ne_zero (by omega : text.length ≠ 0)
    rw [hm, chunkFrom]
    simp only [Nat.sub_zero, List.drop_zero, Nat.zero_add]
    by_cases hrem : text.length ≤ maxSize
    · rw [if_pos hrem]
      simp [joinChunks]
    · rw [if_neg hrem, joinChunks]
      have hk1 : overlap < cutLen text maxSize overlap :=
        lt_cutLen _ _ _ hov
      have hk2 : cutLen text maxSize overlap ≤ maxSize :=
        cutLen_le _ _ _
      rw [chunkFrom_tail text maxSize overlap hov m
        (cutLen text maxSize overlap - overlap) (by omega) (by omega)]
      have he2 : cutLen text maxSize overlap - overlap + overlap
          = cutLen text maxSize overlap := by omega
      rw [he2]
      exact List.take_append_drop _ _

/-- Witness for claim C3 on a concrete text with max size 4 and overlap 1. -/
theorem chunk_text_reconstruct_witness :
    joinChunks 1 (chunk_text ("ab cd ef").toList 4 1) = ("ab cd ef").toList :=
  chunk_text_reconstruct ("ab cd ef").toList 4 1 (by decide)

theorem chunkFrom_chunk_length (text : List Char) (maxSize overlap : Nat) :
    ∀ (fuel s : Nat) (c : List Char),
    c ∈ chunkFrom text maxSize overlap fuel s → c.length ≤ maxSize := by
  intro fuel
  induction fuel with
  | zero => intro s c hc; simp [chunkFrom] at hc
  | succ n ih =>
    intro s c hc
    rw [chunkFrom] at hc
    by_cases hrem : text.length - s ≤ maxSize
    · simp only [hrem, if_true, List.mem_singleton] at hc
      subst hc
      simp only [List.length_drop]
      omega
    · simp only [hrem, if_false, List.mem_cons] at hc
      rcases hc with hc | hc
      · subst hc
        have := cutLen_le (text.drop s) maxSize overlap
        simp only [List.length_take]
        omega
      · exact ih _ _ hc

/-- Claim C4: every chunk produced by chunk_text has length at most
max_size; in particular the hard character cut taken when no separator is
available inside the window cuts at exactly max_size, so it also respects
the bound. -/
theorem chunk_text_chunk_length (text : List Char) (maxSize overlap : Nat) :
    ∀ c ∈ chunk_text text maxSize overlap, c.length ≤ maxSize := by
  intro c hc
  rw [chunk_text] at hc
  by_cases he : text.isEmpty
  · simp [he] at hc
  · simp only [he, if_false] at hc
    exact chunkFrom_chunk_length text maxSize overlap _ _ c hc

/-- Witness for claim C4 at a concrete chunk of a concrete text. -/
theorem chunk_text_chunk_length_witness :
    (("ab ").toList).length ≤ 4 :=
  chunk_text_chunk_length ("ab cd ef").toList 4 1 ("ab ").toList (by decide)

/- ===== RAG content aggregator: get_rag_content ===== -/

/-- The five fixed section queries of get_rag_content
(src/generate_doc_ui.py lines 159-165), as (section key, question) pairs in
insertion order. -/
def ragQueries : List (String × String) :=
  [("executive_summary",
    "What are the key highlights or executive summary of this proposal?"),
   ("approach",
    "What is the company\x27s approach to solving the problem or delivering services?"),
   ("qualifications",
    "What are the company\x27s qualifications and past performance?"),
   ("implementation",
    "What is the company\x27s implementation plan?"),
   ("quality_control",
    "What quality control measures does the company have?")]

/-- The retrieval sentinel phrase excluded from stored answers
(src/generate_doc_ui.py line 178). -/
def ragSentinel : String := "not available in the context"

/-- The behavior of one answer_question call: it raises with a message, or
returns an answer string. -/
inductive QueryOutcome where
  | raises (msg : String)
  | answers (a : String)
deriving DecidableEq

/-- Whether get_rag_content stores an answer (src/generate_doc_ui.py line
178): the Python truthiness test requires a non-empty string, and the
sentinel phrase must not occur in it. -/
def keepAnswer (a : String) : Bool :=
  a != "" && !(strContains a ragSentinel)

/-- The loop body of get_rag_content for one (key, question) pair: a raised
exception is logged and skipped, a kept answer is appended under its key. -/
def ragStep (oracle : String → QueryOutcome)
    (acc : List (String × String)) (kq : String × String) :
    List (String × String) :=
  match oracle kq.2 with
  | .raises _ => acc
  | .answers a => if keepAnswer a then acc ++ [(kq.1, a)] else acc

/-- get_rag_content (src/generate_doc_ui.py lines 150-191) with the
behavior of answer_question supplied by oracle, keyed by question text:
the content map assembled over the five fixed queries. -/
def get_rag_content (oracle : String → QueryOutcome) :
    List (String × String) :=
  ragQueries.foldl (ragStep oracle) []

/-- Does a query outcome represent a raised exception? -/
def outcomeRaises : QueryOutcome → Bool
  | .raises _ => true
  | .answers _ => false

/-- Does a query outcome produce an answer that get_rag_content stores? -/
def outcomeKept : QueryOutcome → Bool
  | .raises _ => false
  | .answers a => keepAnswer a

/-- The answer carried by an outcome, defaulting to the empty string. -/
def answerOf : QueryOutcome → String
  | .raises _ => ""
  | .answers a => a

theorem ragFold_eq (oracle : String → QueryOutcome) :
    ∀ (l : List (String × String)) (acc : List (String × String)),
    l.foldl (ragStep oracle) acc
      = acc ++ (l.filter (fun kq => outcomeKept (oracle kq.2))).map
          (fun kq => (kq.1, answerOf (oracle kq.2))) := by
  intro l
  induction l with
  | nil => intro acc; simp
  | cons kq t ih =>
    intro acc
    rw [List.foldl_cons, ih]
    cases ho : oracle kq.2 with
    | raises msg =>
      simp [ragStep, ho, List.filter_cons, outcomeKept]
    | answers a =>
      by_cases hk : keepAnswer a
      · simp [ragStep, ho, List.filter_cons, outcomeKept, hk, answerOf]
      · simp [ragStep, ho, List.filter_cons, outcomeKept, hk]

theorem get_rag_content_eq (oracle : String → QueryOutcome) :
    get_rag_content oracle
      = (ragQueries.filter (fun kq => outcomeKept (oracle kq.2))).map
          (fun kq => (kq.1, answerOf (oracle kq.2))) := by
  rw [get_rag_content, ragFold_eq]
  simp

theorem length_filter_add_length_filter_not {α : Type}
    (p : α → Bool) (l : List α) :
    (l.filter p).length + (l.filter (fun a => !(p a))).length = l.length := by
  induction l with
  | nil => rfl
  | cons a t ih =>
    by_cases h : p a <;> simp [List.filter_cons, h] <;> omega

/-- Claim C5: get_rag_content never propagates a section failure; a raising
query is skipped while the others are still attempted, so when exactly 2 of
the 5 queries raise and the remaining queries return stored (valid)
answers, the returned map has exactly 3 entries. -/
theorem get_rag_content_partial_failure (oracle : String → QueryOutcome)
    (h2 : (ragQueries.filter
      (fun kq => outcomeRaises (oracle kq.2))).length = 2)
    (hok : ∀ kq ∈ ragQueries, outcomeRaises (oracle kq.2) = false →
      outcomeKept (oracle kq.2) = true) :
    (get_rag_content oracle).length = 3 := by
  rw [get_rag_content_eq, List.length_map]
  have hco : (ragQueries.filter (fun kq => outcomeKept (oracle kq.2)))
      = ragQueries.filter (fun kq => !(outcomeRaises (oracle kq.2))) := by
    apply List.filter_congr
    intro kq hkq
    cases ho : oracle kq.2 with
    | raises msg => simp [outcomeKept, outcomeRaises]
    | answers a =>
      have := hok kq hkq (by simp [ho, outcomeRaises])
      rw [ho] at this
      simp only [outcomeKept] at this
      simp [outcomeKept, outcomeRaises, this]
  rw [hco]
  have := length_filter_add_length_filter_not
    (fun kq => outcomeRaises (oracle kq.2)) ragQueries
  rw [h2] at this
  have h5 : ragQueries.length = 5 := rfl
  omega

/-- Witness for claim C5 at a concrete oracle raising on the approach and
implementation questions and answering the rest. -/
theorem get_rag_content_partial_failure_witness :
    (get_rag_content (fun q =>
      if q = "What is the company\x27s approach to solving the problem or delivering services?"
          ∨ q = "What is the company\x27s implementation plan?"
      then .raises "timeout" else .answers "Detailed section content.")).length
      = 3 :=
  get_rag_content_partial_failure _ (by decide) (by decide)

/-- Claim C10: every value stored in the map returned by get_rag_content is
a non-empty string in which the sentinel phrase does not occur. -/
theorem get_rag_content_values_valid (oracle : String → QueryOutcome) :
    ∀ kv ∈ get_rag_content oracle,
      kv.2 ≠ "" ∧ strContains kv.2 ragSentinel = false := by
  intro kv hkv
  rw [get_rag_content_eq] at hkv
  obtain ⟨kq, hkq, hmap⟩ := List.mem_map.mp hkv
  have hkeep : outcomeKept (oracle kq.2) = true :=
    (List.mem_filter.mp hkq).2
  cases ho : oracle kq.2 with
  | raises msg => rw [ho] at hkeep; simp [outcomeKept] at hkeep
  | answers a =>
    rw [ho] at hkeep
    simp only [outcomeKept, keepAnswer, Bool.and_eq_true, bne_iff_ne,
      ne_eq, Bool.not_eq_true'] at hkeep
    subst hmap
    rw [ho]
    simp only [answerOf]
    exact ⟨hkeep.1, hkeep.2⟩

/-- Witness for claim C10 at a concrete oracle and the first stored entry. -/
theorem get_rag_content_values_valid_witness :
    ("Section text." : String) ≠ "" ∧
      strContains "Section text." ragSentinel = false :=
  get_rag_content_values_valid (fun _ => .answers "Section text.")
    ("executive_summary", "Section text.") (by decide)

/- ===== Vector store persistence: save_vector_store ===== -/

/-- The file-system state relevant to index persistence: the index folders
that exist under faiss_index, each with a flag recording whether its
metadata.json has been written. -/
structure FsState where
  folders : List (String × Bool)
deriving DecidableEq

/-- list_processed_documents (src/generate_doc_ui.py lines 91-104): the
folder names that both exist and contain a metadata file. -/
def list_processed_documents (fs : FsState) : List String :=
  (fs.folders.filter (fun fb => fb.2)).map (fun fb => fb.1)

/-- Mark the metadata file of a folder as written. -/
def setMetadata (fs : FsState) (folderId : String) : FsState :=
  ⟨fs.folders.map (fun fb => if fb.1 = folderId then (fb.1, true) else fb)⟩

/-- The observable outcome of one save_vector_store call: the returned
folder id or the re-raised error, the final file-system state, the number
of build attempts issued, and the backoff sleeps performed, in order. -/
structure SaveResult where
  outcome : Except String String
  fs : FsState
  attempts : Nat
  sleeps : List Nat

/-- The retry loop of save_vector_store (src/generate_doc_ui.py lines
44-68), with the embed-and-persist step of each attempt modelled by build:
a successful attempt writes the metadata file and returns the folder id; a
failed attempt sleeps and doubles the delay unless it was the last allowed
attempt, in which case the exception is re-raised. -/
def saveLoop (build : Nat → Except String Unit) (folderId : String)
    (maxRetries : Nat) :
    Nat → Nat → Nat → List Nat → FsState → SaveResult
  | 0, attempt, _, acc, fs => ⟨Except.error "exhausted", fs, attempt, acc.reverse⟩
  | fuel + 1, attempt, delay, acc, fs =>
    match build attempt with
    | Except.ok _ =>
      ⟨Except.ok folderId, setMetadata fs folderId, attempt + 1, acc.reverse⟩
    | Except.error e =>
      if attempt < maxRetries - 1 then
        saveLoop build folderId maxRetries fuel (attempt + 1) (delay * 2)
          (delay :: acc) fs
      else
        ⟨Except.error e, fs, attempt + 1, acc.reverse⟩

/-- save_vector_store (src/generate_doc_ui.py lines 38-68): creates the
index folder up front with os.makedirs (no metadata yet), then runs the
retry loop with max_retries 3 and an initial retry_delay of 2 seconds. -/
def save_vector_store (build : Nat → Except String Unit) (folderId : String)
    (fs : FsState) : SaveResult :=
  saveLoop build folderId 3 3 0 2 [] ⟨fs.folders ++ [(folderId, false)]⟩

/-- Claim C6: when the embed-and-persist step fails on every attempt,
save_vector_store makes exactly 3 attempts with a doubling backoff delay
between them, surfaces the failure to the caller as a raised error, and the
failed index folder is not listed among processed documents, because its
metadata file was never written. -/
theorem save_vector_store_all_fail (build : Nat → Except String Unit)
    (folderId : String) (fs : FsState)
    (hb : ∀ n, ∃ e, build n = Except.error e)
    (hfresh : folderId ∉ list_processed_documents fs) :
    (∃ e, (save_vector_store build folderId fs).outcome = Except.error e) ∧
    (save_vector_store build folderId fs).attempts = 3 ∧
    (save_vector_store build folderId fs).sleeps = [2, 4] ∧
    folderId ∉ list_processed_documents
      (save_vector_store build folderId fs).fs := by
  obtain ⟨e0, h0⟩ := hb 0
  obtain ⟨e1, h1⟩ := hb 1
  obtain ⟨e2, h2⟩ := hb 2
  have hrun : save_vector_store build folderId fs =
      ⟨Except.error e2, ⟨fs.folders ++ [(folderId, false)]⟩, 3, [2, 4]⟩ := by
    rw [save_vector_store, saveLoop, h0]
    simp only [show (0 < 3 - 1) = True by simp, if_true]
    rw [saveLoop, h1]
    simp only [show (1 < 3 - 1) = True by simp, if_true]
    rw [saveLoop, h2]
    simp only [show ¬(2 < 3 - 1) by simp, if_false]
    rfl
  rw [hrun]
  refine ⟨⟨e2, rfl⟩, rfl, rfl, ?_⟩
  simp only [list_processed_documents, List.filter_append, List.map_append]
  rw [list_processed_documents] at hfresh
  simp [hfresh]

/-- Witness for claim C6 at a concrete always-failing build step, a
concrete folder id, and a file system already holding one processed
document. -/
theorem save_vector_store_all_fail_witness :
    (∃ e, (save_vector_store (fun _ => Except.error "quota")
      "rfp_ab12cd" ⟨[("other_9f", true)]⟩).outcome = Except.error e) ∧
    (save_vector_store (fun _ => Except.error "quota")
      "rfp_ab12cd" ⟨[("other_9f", true)]⟩).attempts = 3 ∧
    (save_vector_store (fun _ => Except.error "quota")
      "rfp_ab12cd" ⟨[("other_9f", true)]⟩).sleeps = [2, 4] ∧
    "rfp_ab12cd" ∉ list_processed_documents
      (save_vector_store (fun _ => Except.error "quota")
        "rfp_ab12cd" ⟨[("other_9f", true)]⟩).fs :=
  save_vector_store_all_fail (fun _ => Except.error "quota")
    "rfp_ab12cd" ⟨[("other_9f", true)]⟩
    (fun _ => ⟨"quota", rfl⟩) (by decide)

/- ===== Text extraction: parse_pdf and get_pdf_text ===== -/

/-- The Python str.join semantics: interleave a fixed separator between the
elements of a list of strings (no separator before the first or after the
last element, empty list joins to the empty string). -/
def joinSep (sep : String) : List String → String
  | [] => ""
  | p :: ps => ps.foldl (fun acc q => acc ++ sep ++ q) p

theorem joinSep_foldl_factor (sep : String) (ps : List String) :
    ∀ (a b : String),
    ps.foldl (fun acc q => acc ++ sep ++ q) (a ++ b)
      = a ++ ps.foldl (fun acc q => acc ++ sep ++ q) b := by
  induction ps with
  | nil => intro a b; rfl
  | cons q t ih =>
    intro a b
    simp only [List.foldl_cons]
    rw [String.append_assoc a b sep, String.append_assoc a (b ++ sep) q, ih]

/-- parse_pdf (src/utility/fileparser.py lines 24-29): the newline join of
the per-page extracted texts, in page order. -/
def parse_pdf (pages : List String) : String :=
  joinSep "\n" pages

/-- get_pdf_text (src/chatbot.py lines 19-26 and src/generate_doc_ui.py
lines 22-29): accumulate page.extract_text() or the empty string over every
page of every uploaded PDF into one string, with no separator; a page whose
extraction returns None is modelled as none. -/
def get_pdf_text (pdf_docs : List (List (Option String))) : String :=
  pdf_docs.foldl (fun text pdf =>
    pdf.foldl (fun t page => t ++ page.getD "") text) ""

theorem get_pdf_text_inner_factor (pdf : List (Option String)) :
    ∀ (a b : String),
    pdf.foldl (fun t page => t ++ page.getD "") (a ++ b)
      = a ++ pdf.foldl (fun t page => t ++ page.getD "") b := by
  induction pdf with
  | nil => intro a b; rfl
  | cons pg t ih =>
    intro a b
    simp only [List.foldl_cons]
    rw [String.append_assoc, ih]

theorem get_pdf_text_outer_factor (docs : List (List (Option String))) :
    ∀ (a b : String),
    docs.foldl (fun text pdf =>
        pdf.foldl (fun t page => t ++ page.getD "") text) (a ++ b)
      = a ++ docs.foldl (fun text pdf =>
          pdf.foldl (fun t page => t ++ page.getD "") text) b := by
  induction docs with
  | nil => intro a b; rfl
  | cons pdf t ih =>
    intro a b
    simp only [List.foldl_cons]
    rw [get_pdf_text_inner_factor pdf a b, ih]

/-- Claim C7 counterexample: with one uploaded PDF whose two pages extract
to a and b, the Streamlit helper get_pdf_text returns ab with no newline
between the pages, while the claimed newline-separated form is the
distinct string produced by parse_pdf. -/
theorem get_pdf_text_no_newline :
    get_pdf_text [[some "a", some "b"]] = "ab" ∧
    ("ab" : String) ≠ "a" ++ "\n" ++ "b" ∧
    parse_pdf ["a", "b"] = "a" ++ "\n" ++ "b" :=
  ⟨rfl, by decide, rfl⟩

/-- Claim C7 amended: parse_pdf concatenates the per-page texts in page
order with exactly one newline between consecutive pages and an empty page
contributing the empty string, while the get_pdf_text helpers of the
Streamlit apps concatenate the per-page texts of all uploaded PDFs in
order with no separator at all, a None extraction contributing the empty
string. -/
theorem pdf_extraction_shape (p q : String) (ps : List String)
    (pg : Option String) (pdf : List (Option String))
    (docs : List (List (Option String))) :
    parse_pdf [] = "" ∧
    parse_pdf [p] = p ∧
    parse_pdf (p :: q :: ps) = p ++ "\n" ++ parse_pdf (q :: ps) ∧
    get_pdf_text [] = "" ∧
    get_pdf_text ([] :: docs) = get_pdf_text docs ∧
    get_pdf_text ((pg :: pdf) :: docs)
      = pg.getD "" ++ get_pdf_text (pdf :: docs) := by
  refine ⟨rfl, rfl, ?_, rfl, rfl, ?_⟩
  · rw [parse_pdf, parse_pdf, joinSep, joinSep]
    simp only [List.foldl_cons]
    exact joinSep_foldl_factor "\n" ps (p ++ "\n") q
  · rw [get_pdf_text, get_pdf_text]
    simp only [List.foldl_cons]
    rw [show ("" ++ pg.getD "" : String) = pg.getD "" ++ "" by
      rw [String.empty_append, String.append_empty]]
    rw [get_pdf_text_inner_factor pdf (pg.getD "") "",
      get_pdf_text_outer_factor docs (pg.getD "")]

/- ===== Feedback logger: log_feedback ===== -/

/-- log_feedback (src/utility/feedback_logger.py lines 8-18): the JSON
record appended to the feedback log as one line, modelled as an ordered
key/value list; the timestamp argument stands for the ISO-8601 string
produced by datetime.utcnow().isoformat(). -/
def log_feedback (timestamp rfp_name agent_name output_text rating comment :
    String) : List (String × String) :=
  [("timestamp", timestamp), ("rfp_file", rfp_name), ("agent", agent_name),
   ("output", output_text), ("rating", rating), ("comment", comment)]

/-- The thumbs-up feedback call site (src/app.py line 124). -/
def log_feedback_up (timestamp fname agent output : String) :
    List (String × String) :=
  log_feedback timestamp fname agent output "👍" ""

/-- The thumbs-down feedback call site (src/app.py line 131). -/
def log_feedback_down (timestamp fname agent output comment : String) :
    List (String × String) :=
  log_feedback timestamp fname agent output "👎" comment

/-- Claim C8 counterexample: the record logged by the thumbs-up call site
carries the rating 👍, which is neither the string up nor the string down
that the claim requires. -/
theorem log_feedback_rating_not_up_down :
    (log_feedback_up "2024-01-01T00:00:00" "doc.pdf" "Summary" "text").lookup
      "rating" = some "👍" ∧
    ("👍" : String) ≠ "up" ∧ ("👍" : String) ≠ "down" :=
  ⟨rfl, by decide, by decide⟩

/-- Claim C8 amended: every record appended by the feedback call sites has
exactly the keys timestamp, rfp_file, agent, output, rating and comment in
that order, with the timestamp string passed through and the rating value
👍 at the thumbs-up site and 👎 at the thumbs-down site (not the strings
up and down). -/
theorem log_feedback_record_shape (ts fname agent output comment : String) :
    (log_feedback_up ts fname agent output).map Prod.fst
      = ["timestamp", "rfp_file", "agent", "output", "rating", "comment"] ∧
    (log_feedback_down ts fname agent output comment).map Prod.fst
      = ["timestamp", "rfp_file", "agent", "output", "rating", "comment"] ∧
    (log_feedback_up ts fname agent output).lookup "rating" = some "👍" ∧
    (log_feedback_down ts fname agent output comment).lookup "rating"
      = some "👎" ∧
    (log_feedback_up ts fname agent output).lookup "timestamp" = some ts ∧
    (log_feedback_down ts fname agent output comment).lookup "comment"
      = some comment :=
  ⟨rfl, rfl, rfl, rfl, rfl, rfl⟩

/- ===== Analyzer dispatch: run_agent_single ===== -/

/-- The shapes of a successful agent invocation output inspected by
run_agent_single (src/app.py lines 74-80): an object with a content
attribute, a dict carrying a text entry, or anything else rendered through
str. -/
inductive AgentOutput where
  | contentAttr (content : String)
  | textDict (text : String)
  | strOther (s : String)
deriving DecidableEq

/-- The outcome of one agent.invoke call: a returned output, a raised
rate-limit error, or any other raised exception with its message. -/
inductive InvokeOutcome where
  | ok (out : AgentOutput)
  | rateLimitErr
  | exn (msg : String)
deriving DecidableEq

/-- The input payload built by run_agent_single (src/app.py lines 69-72):
the chunks re-joined with blank lines under the document key, followed by
any extra inputs. -/
def mkPayload (chunks : List String) (extra : List (String × String)) :
    List (String × String) :=
  ("document", joinSep "\n\n" chunks) :: extra

/-- run_agent_single (src/app.py lines 67-86) with the agent modelled as a
function from payload to invocation outcome: a content attribute, a text
entry or the string form is returned on success, a rate-limit error
becomes a fixed message, and any other exception is caught and its message
string returned. -/
def run_agent_single (agent : List (String × String) → InvokeOutcome)
    (chunks : List String) (extra : List (String × String)) : String :=
  match agent (mkPayload chunks extra) with
  | .ok (.contentAttr c) => c
  | .ok (.textDict t) => t
  | .ok (.strOther s) => s
  | .rateLimitErr => "Rate limit error."
  | .exn msg => msg

/-- Claim C9: run_agent_single is total over agent failures: every
invocation outcome, success, rate-limit error or other exception, maps to
a returned string, and an exception other than a rate-limit error yields
exactly its message string as the result. -/
theorem run_agent_single_total
    (agent : List (String × String) → InvokeOutcome)
    (chunks : List String) (extra : List (String × String)) :
    (∀ msg, agent (mkPayload chunks extra) = InvokeOutcome.exn msg →
      run_agent_single agent chunks extra = msg) ∧
    (agent (mkPayload chunks extra) = InvokeOutcome.rateLimitErr →
      run_agent_single agent chunks extra = "Rate limit error.") ∧
    (∀ out, agent (mkPayload chunks extra) = InvokeOutcome.ok out →
      ∃ s, run_agent_single agent chunks extra = s ∧
        (out = .contentAttr s ∨ out = .textDict s ∨ out = .strOther s)) := by
  refine ⟨?_, ?_, ?_⟩
  · intro msg h
    rw [run_agent_single, h]
  · intro h
    rw [run_agent_single, h]
  · intro out h
    cases out with
    | contentAttr c => exact ⟨c, by rw [run_agent_single, h], Or.inl rfl⟩
    | textDict t => exact ⟨t, by rw [run_agent_single, h], Or.inr (Or.inl rfl)⟩
    | strOther s => exact ⟨s, by rw [run_agent_single, h], Or.inr (Or.inr rfl)⟩

/-- Witness for claim C9 at a concrete agent that raises a non-rate-limit
exception on a concrete chunk list. -/
theorem run_agent_single_total_witness :
    run_agent_single (fun _ => InvokeOutcome.exn "context too long")
      ["chunk one", "chunk two"] [] = "context too long" :=
  (run_agent_single_total (fun _ => InvokeOutcome.exn "context too long")
    ["chunk one", "chunk two"] []).1 "context too long" rfl
